import Mathlib

/-!
# go-live-text-to-speech: the relay handler of `main.go`

A shallow embedding of `MyHandler.Run` (the five channel consumers) and of
`handleWebSocket` (client creation, connect, read loop), followed by the
properties established about them.

Conventions of the embedding:

* a byte slice is a `List Nat` whose entries are below 256;
* a `time.Time` is an `Int`, the monotonic clock reading in nanoseconds, and
  a `time.Duration` is an `Int` number of nanoseconds;
* a channel is the finite list of values delivered on it, in delivery order;
  the pointers carried by the channels are modelled by the values they point to;
* each consumer goroutine is a function from the values of its channel to the
  list of `WriteMessage` calls it makes on `wsUI`, in program order;
* library calls whose result the code branches on (`json.Marshal`,
  `json.Unmarshal`, `ReadMessage`, `SpeakWithText`, `Flush`, `NewWSUsingChan`,
  `Connect`, `Upgrade`) have their results supplied as inputs.
-/

namespace GoLiveTTS

/-! ## Data model -/

/-- Byte slices. -/
abbrev Bytes := List Nat

/-- One call `dch.wsUI.WriteMessage(messageType, data)`. -/
inductive Frame
  | text (data : Bytes)
  | binary (data : Bytes)
deriving DecidableEq

/-- The duration `time.Second`, in nanoseconds. -/
def second : Int := 1000000000

/-- The slice `header` of lines 144-158. -/
def header : Bytes :=
  [0x52, 0x49, 0x46, 0x46,
   0x00, 0x00, 0x00, 0x00,
   0x57, 0x41, 0x56, 0x45,
   0x66, 0x6d, 0x74, 0x20,
   0x10, 0x00, 0x00, 0x00,
   0x01, 0x00,
   0x01, 0x00,
   0x80, 0xbb, 0x00, 0x00,
   0x00, 0xee, 0x02, 0x00,
   0x02, 0x00,
   0x10, 0x00,
   0x64, 0x61, 0x74, 0x61,
   0x00, 0x00, 0x00, 0x00]

/-- Little-endian unsigned integer held by a byte slice. -/
def leUint : Bytes → Nat
  | [] => 0
  | b :: rest => b + 256 * leUint rest

/-- The bytes `lo .. hi` (both included) of a slice. -/
def field (bs : Bytes) (lo hi : Nat) : Bytes :=
  (bs.drop lo).take (hi + 1 - lo)

/-- Code points of an ASCII string, as bytes. -/
def ascii (s : String) : Bytes :=
  s.toList.map Char.toNat

/-- The value `clientinterfaces.WSSpeakOptions` of lines 250-254 (the fields the handler sets). -/
structure WSSpeakOptions where
  Model : String
  Encoding : String
  SampleRate : Nat
deriving DecidableEq

/-- The options `sOptions` built by `handleWebSocket` for a model name. -/
def sOptions (model : String) : WSSpeakOptions :=
  { Model := model, Encoding := "linear16", SampleRate := 48000 }

/-! ## The audio-chunk consumer of `Run` (lines 133-167) -/

/-- One value received from `binaryChan`, with the clock readings of its iteration. -/
structure BinaryEvent where
  /-- The chunk `*br`. -/
  br : Bytes
  /-- The clock reading used by `time.Since(lastTime)` on line 139. -/
  now : Int
  /-- The clock reading returned by `time.Now()` on line 161 (taken only when the header is written). -/
  stamp : Int
deriving DecidableEq

/-- The loop `for br := range dch.binaryChan` with the current value of `lastTime`. -/
def binaryLoop (lastTime : Int) : List BinaryEvent → List Frame
  | [] => []
  | e :: rest =>
    if e.now - lastTime > 3 * second then
      Frame.binary header :: Frame.binary e.br :: binaryLoop e.stamp rest
    else
      Frame.binary e.br :: binaryLoop lastTime rest

/-- The audio goroutine: `lastTime := time.Now().Add(-5 * time.Second)` and then the loop;
`start` is the clock reading of line 136. -/
def binaryConsumer (start : Int) (evs : List BinaryEvent) : List Frame :=
  binaryLoop (start + (-5) * second) evs

/-- A chunk whose two clock readings coincide with its arrival time `t`. -/
def chunkAt (t : Int) (br : Bytes) : BinaryEvent :=
  { br := br, now := t, stamp := t }

/-- The chunks of the C1 counterexample: arrivals at 0 s, 2 s and 4 s. -/
def chunksTwoSecondsApart : List BinaryEvent :=
  [chunkAt 0 [1], chunkAt (2 * second) [2], chunkAt (4 * second) [3]]

/-- The chunks of the C2 counterexample: arrivals at 0 s and exactly 3 s later. -/
def chunksThreeSecondsApart : List BinaryEvent :=
  [chunkAt 0 [1], chunkAt (3 * second) [2]]

/-! ## The four JSON consumers of `Run`

`marshal` stands for `json.Marshal` at the event type of the channel; `none` is a
non-nil error. -/

/-- The loop `for or := range dch.openChan` (lines 96-108). -/
def openConsumer {OpenResponse : Type} (marshal : OpenResponse → Option Bytes) :
    List OpenResponse → List Frame
  | [] => []
  | or :: rest =>
    match marshal or with
    | none => openConsumer marshal rest
    | some openJSON => Frame.text openJSON :: openConsumer marshal rest

/-- The loop `for fr := range dch.flushedChan` (lines 116-128). -/
def flushedConsumer {FlushedResponse : Type} (marshal : FlushedResponse → Option Bytes) :
    List FlushedResponse → List Frame
  | [] => []
  | fr :: rest =>
    match marshal fr with
    | none => flushedConsumer marshal rest
    | some flushedJSON => Frame.text flushedJSON :: flushedConsumer marshal rest

/-- The loop `for cr := range dch.closeChan` (lines 174-186). -/
def closeConsumer {CloseResponse : Type} (marshal : CloseResponse → Option Bytes) :
    List CloseResponse → List Frame
  | [] => []
  | cr :: rest =>
    match marshal cr with
    | none => closeConsumer marshal rest
    | some closeJSON => Frame.text closeJSON :: closeConsumer marshal rest

/-- The loop `for er := range dch.errorChan` (lines 194-208). -/
def errorConsumer {ErrorResponse : Type} (marshal : ErrorResponse → Option Bytes) :
    List ErrorResponse → List Frame
  | [] => []
  | er :: rest =>
    match marshal er with
    | none => errorConsumer marshal rest
    | some errorJSON => Frame.text errorJSON :: errorConsumer marshal rest

/-- The five channels of `MyHandler`, each as the list of values delivered on it. -/
structure MyHandler (OpenResponse FlushedResponse CloseResponse ErrorResponse : Type) where
  binaryChan : List BinaryEvent
  openChan : List OpenResponse
  flushedChan : List FlushedResponse
  closeChan : List CloseResponse
  errorChan : List ErrorResponse

/-- The function `json.Marshal` at the four event types. -/
structure Marshal (OpenResponse FlushedResponse CloseResponse ErrorResponse : Type) where
  openResponse : OpenResponse → Option Bytes
  flushedResponse : FlushedResponse → Option Bytes
  closeResponse : CloseResponse → Option Bytes
  errorResponse : ErrorResponse → Option Bytes

/-- The `WriteMessage` calls of each of the five goroutines of `Run`, in program order. -/
structure Writes where
  openWrites : List Frame
  flushedWrites : List Frame
  binaryWrites : List Frame
  closeWrites : List Frame
  errorWrites : List Frame

/-- The method `Run`: one consumer per channel; `start` is the clock reading of line 136. -/
def Run {O F C E : Type} (marshal : Marshal O F C E) (start : Int) (dch : MyHandler O F C E) :
    Writes :=
  { openWrites := openConsumer marshal.openResponse dch.openChan
    flushedWrites := flushedConsumer marshal.flushedResponse dch.flushedChan
    binaryWrites := binaryConsumer start dch.binaryChan
    closeWrites := closeConsumer marshal.closeResponse dch.closeChan
    errorWrites := errorConsumer marshal.errorResponse dch.errorChan }

/-! ## The read loop of `handleWebSocket` (lines 270-303) -/

/-- What `json.Unmarshal(message, &requestData)` does with one text message: which value,
if any, it stores in the field `Text` of the target, and whether it returns an error.
A JSON object without a `text` key, such as `{"txt":"hi"}`, stores nothing and returns no
error; `{"text":"hello"}` stores `hello`; `{"text":""}` stores the empty string; a message
that is not valid JSON stores nothing and returns an error. -/
structure TextMessage where
  /-- The value stored in `requestData.Text`, `none` when the field is left as it was. -/
  stored : Option String
  /-- Whether `json.Unmarshal` returns a non-nil error. -/
  err : Bool
deriving DecidableEq

/-- The result of one `conn.ReadMessage()`, with the results of the backend calls the
iteration makes when it reaches them. -/
inductive Inbound
  /-- `ReadMessage` returns an error. -/
  | readErr
  /-- A message of type `websocket.TextMessage`; `speakErr` and `flushErr` tell whether
  `SpeakWithText` and `Flush` return an error when called for it. -/
  | text (message : TextMessage) (speakErr flushErr : Bool)
  /-- A message of any other type. -/
  | binary
deriving DecidableEq

/-- A call on `wsClient`, with whether it returned an error. -/
inductive Call
  | SpeakWithText (text : String) (err : Bool)
  | Flush (err : Bool)
deriving DecidableEq

/-- How the read loop stands at the end of the inbound script. -/
inductive Stop
  /-- Every scripted message was handled; the loop is in `conn.ReadMessage()` again. -/
  | reading
  /-- The `break` of line 275. -/
  | readFailed
  /-- The `return` of line 300. -/
  | flushFailed
deriving DecidableEq

/-- What the read loop did. -/
structure LoopResult where
  /-- Calls made on `wsClient`, in order. -/
  calls : List Call
  /-- Number of `ReadMessage` calls that returned. -/
  reads : Nat
  stop : Stop
  /-- Final value of `requestData.Text`. -/
  requestData : String
deriving DecidableEq

/-- One more iteration in front of a run: its calls and its read. -/
def LoopResult.after (cs : List Call) (r : LoopResult) : LoopResult :=
  { r with calls := cs ++ r.calls, reads := r.reads + 1 }

/-- The loop `for { ... }` of lines 270-303, started with `requestData.Text = requestData`. -/
def readLoop (requestData : String) : List Inbound → LoopResult
  | [] => { calls := [], reads := 0, stop := Stop.reading, requestData := requestData }
  | Inbound.readErr :: _ =>
    { calls := [], reads := 1, stop := Stop.readFailed, requestData := requestData }
  | Inbound.binary :: rest => (readLoop requestData rest).after []
  | Inbound.text message speakErr flushErr :: rest =>
    let text := message.stored.getD requestData
    if message.err then (readLoop text rest).after []
    else if text = "" then (readLoop text rest).after []
    else if flushErr then
      { calls := [Call.SpeakWithText text speakErr, Call.Flush true], reads := 1,
        stop := Stop.flushFailed, requestData := text }
    else (readLoop text rest).after [Call.SpeakWithText text speakErr, Call.Flush false]

/-! ## `handleWebSocket` (lines 227-304) -/

/-- The inputs of one invocation of `handleWebSocket`. -/
structure Request where
  /-- The query parameter `model`. -/
  model : String
  /-- Whether `upgrader.Upgrade` succeeds. -/
  upgradeOk : Bool
  /-- Whether `client.NewWSUsingChan` returns without error. -/
  newClientOk : Bool
  /-- The result of `wsClient.Connect()`. -/
  isConnected : Bool
  /-- The results of the successive `conn.ReadMessage()` calls. -/
  inbound : List Inbound
deriving DecidableEq

/-- How an invocation of `handleWebSocket` ends. -/
inductive Outcome
  /-- The handler returned; `connClosed` tells whether the deferred `conn.Close()` ran. -/
  | returned (connClosed : Bool)
  /-- A call of `log.Fatalf`: the message is logged and `os.Exit(1)` ends the process. -/
  | processTerminated
  /-- The handler is waiting in `conn.ReadMessage()`. -/
  | reading
deriving DecidableEq

/-- What an invocation of `handleWebSocket` did. -/
structure HandlerResult where
  outcome : Outcome
  /-- The options handed to `client.NewWSUsingChan`, when it was called. -/
  options : Option WSSpeakOptions
  calls : List Call
  reads : Nat
  requestData : String
deriving DecidableEq

/-- The function `handleWebSocket`; `requestData` is the value of the package-level
variable `requestData.Text` when the handler starts. -/
def handleWebSocket (requestData : String) (r : Request) : HandlerResult :=
  if r.upgradeOk = false then
    { outcome := Outcome.returned false, options := none, calls := [], reads := 0,
      requestData := requestData }
  else
    let model := if r.model = "" then "aura-asteria-en" else r.model
    if r.newClientOk = false then
      { outcome := Outcome.processTerminated, options := some (sOptions model), calls := [],
        reads := 0, requestData := requestData }
    else if r.isConnected = false then
      { outcome := Outcome.processTerminated, options := some (sOptions model), calls := [],
        reads := 0, requestData := requestData }
    else
      let loop := readLoop requestData r.inbound
      { outcome :=
          match loop.stop with
          | Stop.reading => Outcome.reading
          | Stop.readFailed => Outcome.returned true
          | Stop.flushFailed => Outcome.returned true
        options := some (sOptions model), calls := loop.calls, reads := loop.reads,
        requestData := loop.requestData }

/-- The message `{"txt":"hi"}`: valid JSON without a `text` field. -/
def msgTxtHi : TextMessage := { stored := none, err := false }

/-- The message `{"text":"hello"}`. -/
def msgTextHello : TextMessage := { stored := some "hello", err := false }

/-- The message `{"text":""}`. -/
def msgTextEmpty : TextMessage := { stored := some "", err := false }

/-- A message that is not valid JSON. -/
def msgNotJSON : TextMessage := { stored := none, err := true }

/-! # Properties -/

/-- C4: the header frame is 44 bytes long with the canonical RIFF/WAVE layout, and its
sample-rate field decodes to 48000, the `SampleRate` of the synthesis options. -/
theorem header_layout (model : String) :
    header.length = 44 ∧
    field header 0 3 = ascii "RIFF" ∧
    field header 4 7 = [0, 0, 0, 0] ∧
    field header 8 11 = ascii "WAVE" ∧
    field header 12 15 = ascii "fmt " ∧
    leUint (field header 16 19) = 16 ∧
    leUint (field header 20 21) = 1 ∧
    leUint (field header 22 23) = 1 ∧
    leUint (field header 24 27) = 48000 ∧
    leUint (field header 24 27) = (sOptions model).SampleRate ∧
    leUint (field header 32 33) = 2 ∧
    leUint (field header 34 35) = 16 ∧
    field header 36 39 = ascii "data" ∧
    field header 40 43 = [0, 0, 0, 0] := by
  refine ⟨by decide, by decide, by decide, by decide, by decide, by decide, by decide,
    by decide, by decide, ?_, by decide, by decide, by decide, by decide⟩
  show leUint (field header 24 27) = 48000
  decide

/-- C3 (failing input evaluated): the byte-rate field of the header decodes to 192000,
which is not `sampleRate * 2 = 96000` for the header's own sample rate 48000, one channel
and 16 bits per sample. -/
theorem header_byteRate_mismatch :
    leUint (field header 28 31) = 192000 ∧
    leUint (field header 24 27) * 2 = 96000 ∧
    leUint (field header 24 27) * leUint (field header 22 23) * leUint (field header 34 35) / 8
      = 96000 ∧
    leUint (field header 28 31) ≠ leUint (field header 24 27) * 2 := by
  decide


/-! ## The audio-chunk consumer: header policy -/

/-- While every chunk is checked within 3 s of `lastTime`, the loop writes the payloads only. -/
theorem binaryLoop_quiet (lastTime : Int) (evs : List BinaryEvent)
    (h : ∀ x ∈ evs, x.now - lastTime ≤ 3 * second) :
    binaryLoop lastTime evs = evs.map (fun x => Frame.binary x.br) := by
  induction evs with
  | nil => rfl
  | cons e rest ih =>
    have he : ¬ (e.now - lastTime > 3 * second) := by
      have := h e (List.mem_cons_self e rest)
      omega
    have hrest : ∀ x ∈ rest, x.now - lastTime ≤ 3 * second :=
      fun x hx => h x (List.mem_cons_of_mem e hx)
    simp [binaryLoop, he, ih hrest]

/-- The loop writes at least one frame per chunk. -/
theorem binaryLoop_length_ge (lastTime : Int) (evs : List BinaryEvent) :
    evs.length ≤ (binaryLoop lastTime evs).length := by
  induction evs generalizing lastTime with
  | nil => simp [binaryLoop]
  | cons e rest ih =>
    unfold binaryLoop
    split
    · have := ih e.stamp
      simp only [List.length_cons]
      omega
    · have := ih lastTime
      simp only [List.length_cons]
      omega

/-- When the loop writes exactly one frame per chunk, no chunk was checked more than 3 s
after `lastTime`. -/
theorem binaryLoop_quiet_of_length (lastTime : Int) (evs : List BinaryEvent)
    (h : (binaryLoop lastTime evs).length = evs.length) :
    ∀ x ∈ evs, x.now - lastTime ≤ 3 * second := by
  induction evs with
  | nil => simp
  | cons e rest ih =>
    unfold binaryLoop at h
    split at h
    · have := binaryLoop_length_ge e.stamp rest
      simp only [List.length_cons] at h
      omega
    · rename_i hq
      simp only [List.length_cons, add_left_inj] at h
      intro x hx
      rcases List.mem_cons.mp hx with rfl | hx
      · omega
      · exact ih h x hx

/-- The loop over a concatenation: the second part runs from the `lastTime` left by the
first, which is the initial one or the `stamp` of a chunk of the first part. -/
theorem binaryLoop_append (lastTime : Int) (pre : List BinaryEvent) :
    ∃ last : Int, (last = lastTime ∨ ∃ x ∈ pre, last = x.stamp) ∧
      ∀ rest, binaryLoop lastTime (pre ++ rest) =
        binaryLoop lastTime pre ++ binaryLoop last rest := by
  induction pre generalizing lastTime with
  | nil => exact ⟨lastTime, Or.inl rfl, fun rest => by simp [binaryLoop]⟩
  | cons e pre ih =>
    by_cases hq : e.now - lastTime > 3 * second
    · obtain ⟨last, hlast, happ⟩ := ih e.stamp
      refine ⟨last, Or.inr ?_, fun rest => by simp [binaryLoop, hq, happ]⟩
      rcases hlast with rfl | ⟨x, hx, rfl⟩
      · exact ⟨e, List.mem_cons_self e pre, rfl⟩
      · exact ⟨x, List.mem_cons_of_mem e hx, rfl⟩
    · obtain ⟨last, hlast, happ⟩ := ih lastTime
      refine ⟨last, ?_, fun rest => by simp [binaryLoop, hq, happ]⟩
      rcases hlast with rfl | ⟨x, hx, rfl⟩
      · exact Or.inl rfl
      · exact Or.inr ⟨x, List.mem_cons_of_mem e hx, rfl⟩

/-- Whatever the clock readings, the loop writes one group of frames per chunk, in the
order of the chunks: the payload alone or the header and then the payload. -/
theorem binaryLoop_groups (lastTime : Int) (evs : List BinaryEvent) :
    ∃ groups : List (List Frame),
      List.Forall₂ (fun g (e : BinaryEvent) =>
        g = [Frame.binary e.br] ∨ g = [Frame.binary header, Frame.binary e.br]) groups evs ∧
      binaryLoop lastTime evs = groups.flatten := by
  induction evs generalizing lastTime with
  | nil => exact ⟨[], List.Forall₂.nil, rfl⟩
  | cons e rest ih =>
    by_cases hq : e.now - lastTime > 3 * second
    · obtain ⟨groups, hall, heq⟩ := ih e.stamp
      exact ⟨[Frame.binary header, Frame.binary e.br] :: groups,
        List.Forall₂.cons (Or.inr rfl) hall, by simp [binaryLoop, hq, heq]⟩
    · obtain ⟨groups, hall, heq⟩ := ih lastTime
      exact ⟨[Frame.binary e.br] :: groups,
        List.Forall₂.cons (Or.inl rfl) hall, by simp [binaryLoop, hq, heq]⟩

/-- C1 (counterexample): three chunks arriving 2 s apart, each gap below 3 s, get a second
header before the third chunk, so the frames are not one header followed by the payloads. -/
theorem header_repeated_within_short_gaps :
    chunksTwoSecondsApart ≠ [] ∧
    List.Chain' (fun a b : BinaryEvent => b.now - a.now < 3 * second) chunksTwoSecondsApart ∧
    binaryConsumer 0 chunksTwoSecondsApart =
      [Frame.binary header, Frame.binary [1], Frame.binary [2],
       Frame.binary header, Frame.binary [3]] ∧
    binaryConsumer 0 chunksTwoSecondsApart ≠
      Frame.binary header :: chunksTwoSecondsApart.map (fun x => Frame.binary x.br) := by
  refine ⟨by decide, ?_, by decide, by decide⟩
  simp [chunksTwoSecondsApart, chunkAt, second]

/-- C1 (amended): when the first chunk is checked no earlier than the start of the consumer
and every later chunk is checked at most 3 s after the timestamp taken at the first header,
the frames are exactly one header followed by the payloads in order; and these are the only
runs with that output. -/
theorem single_header_within_window (start : Int) (e : BinaryEvent) (rest : List BinaryEvent)
    (hstart : start ≤ e.now) :
    ((∀ x ∈ rest, x.now - e.stamp ≤ 3 * second) →
      binaryConsumer start (e :: rest) =
        Frame.binary header :: (e :: rest).map (fun x => Frame.binary x.br)) ∧
    (binaryConsumer start (e :: rest) =
        Frame.binary header :: (e :: rest).map (fun x => Frame.binary x.br) →
      ∀ x ∈ rest, x.now - e.stamp ≤ 3 * second) := by
  have hq : e.now - (start + (-5) * second) > 3 * second := by
    simp only [second]
    omega
  have hrun : binaryConsumer start (e :: rest) =
      Frame.binary header :: Frame.binary e.br :: binaryLoop e.stamp rest := by
    rw [binaryConsumer, binaryLoop, if_pos hq]
  constructor
  · intro h
    rw [hrun, binaryLoop_quiet e.stamp rest h]
    rfl
  · intro h
    rw [hrun] at h
    apply binaryLoop_quiet_of_length
    have := congrArg List.length h
    simpa using this

/-- Witness of `single_header_within_window`: chunks at 0 s, 1 s and 3 s. -/
theorem single_header_within_window_witness :
    (0 : Int) ≤ (chunkAt 0 [1]).now ∧
    (∀ x ∈ [chunkAt second [2], chunkAt (3 * second) [3]],
      x.now - (chunkAt 0 [1]).stamp ≤ 3 * second) ∧
    binaryConsumer 0 [chunkAt 0 [1], chunkAt second [2], chunkAt (3 * second) [3]] =
      [Frame.binary header, Frame.binary [1], Frame.binary [2], Frame.binary [3]] :=
  ⟨by decide, by decide,
   (single_header_within_window 0 (chunkAt 0 [1])
      [chunkAt second [2], chunkAt (3 * second) [3]] (by decide)).1 (by decide)⟩

/-- C2 (counterexample): a chunk arriving exactly 3 s after a chunk that got a header is
written without a header. -/
theorem no_header_at_exactly_three_seconds :
    (chunkAt (3 * second) [2]).now - (chunkAt 0 [1]).now ≥ 3 * second ∧
    binaryConsumer 0 chunksThreeSecondsApart =
      [Frame.binary header, Frame.binary [1], Frame.binary [2]] ∧
    ¬ ∃ front back, binaryConsumer 0 chunksThreeSecondsApart =
      front ++ Frame.binary header :: Frame.binary [2] :: back := by
  refine ⟨by decide, by decide, ?_⟩
  rintro ⟨front, back, h⟩
  have hrun : binaryConsumer 0 chunksThreeSecondsApart =
      [Frame.binary header, Frame.binary [1], Frame.binary [2]] := by decide
  rw [hrun] at h
  rcases front with _ | ⟨a, _ | ⟨b, _ | ⟨c, front⟩⟩⟩
  · simp at h
  · simp at h
    exact absurd h.2.1 (by decide)
  · simp at h
  · simp at h

/-- C2 (amended): with a clock that does not run backwards, when the second of two
consecutive chunks is checked more than 3 s after the first chunk's check and header
timestamp, a header is written immediately before the second chunk's payload, whether or
not a header was written before the first. -/
theorem header_after_quiet_gap (start : Int) (pre : List BinaryEvent) (e1 e2 : BinaryEvent)
    (post : List BinaryEvent)
    (hstart : start ≤ e1.now)
    (hpre : ∀ x ∈ pre, x.stamp ≤ e1.now)
    (hgap : e2.now - e1.now > 3 * second)
    (hstamp : e2.now - e1.stamp > 3 * second) :
    binaryConsumer start (pre ++ e1 :: e2 :: post) =
      binaryConsumer start (pre ++ [e1]) ++
        Frame.binary header :: Frame.binary e2.br :: binaryLoop e2.stamp post := by
  obtain ⟨last, hlast, happ⟩ := binaryLoop_append (start + (-5) * second) (pre ++ [e1])
  have hsplit : pre ++ e1 :: e2 :: post = (pre ++ [e1]) ++ e2 :: post := by simp
  have hq : e2.now - last > 3 * second := by
    rcases hlast with rfl | ⟨x, hx, rfl⟩
    · simp only [second] at hgap ⊢
      omega
    · rcases List.mem_append.mp hx with hx | hx
      · have := hpre x hx
        omega
      · rw [List.mem_singleton.mp hx]
        exact hstamp
  simp only [binaryConsumer, hsplit, happ]
  simp [binaryLoop, hq]

/-- Witness of `header_after_quiet_gap`: chunks at 0 s and 3 s plus one nanosecond. -/
theorem header_after_quiet_gap_witness :
    (chunkAt (3 * second + 1) [2]).now - (chunkAt 0 [1]).now > 3 * second ∧
    binaryConsumer 0 ([] ++ chunkAt 0 [1] :: chunkAt (3 * second + 1) [2] :: []) =
      binaryConsumer 0 ([] ++ [chunkAt 0 [1]]) ++
        Frame.binary header :: Frame.binary [2] :: binaryLoop (3 * second + 1) [] :=
  ⟨by decide,
   header_after_quiet_gap 0 [] (chunkAt 0 [1]) (chunkAt (3 * second + 1) [2]) []
    (by decide) (by simp) (by decide) (by decide)⟩

/-! ## The JSON consumers -/

/-- The open consumer writes the serializations that succeeded, in order. -/
theorem openConsumer_eq {OpenResponse : Type} (marshal : OpenResponse → Option Bytes)
    (evs : List OpenResponse) :
    openConsumer marshal evs = evs.filterMap (fun x => (marshal x).map Frame.text) := by
  induction evs with
  | nil => rfl
  | cons x rest ih =>
    unfold openConsumer
    cases hm : marshal x <;> simp [List.filterMap_cons, hm, ih]

/-- The flushed consumer writes the serializations that succeeded, in order. -/
theorem flushedConsumer_eq {FlushedResponse : Type} (marshal : FlushedResponse → Option Bytes)
    (evs : List FlushedResponse) :
    flushedConsumer marshal evs = evs.filterMap (fun x => (marshal x).map Frame.text) := by
  induction evs with
  | nil => rfl
  | cons x rest ih =>
    unfold flushedConsumer
    cases hm : marshal x <;> simp [List.filterMap_cons, hm, ih]

/-- The close consumer writes the serializations that succeeded, in order. -/
theorem closeConsumer_eq {CloseResponse : Type} (marshal : CloseResponse → Option Bytes)
    (evs : List CloseResponse) :
    closeConsumer marshal evs = evs.filterMap (fun x => (marshal x).map Frame.text) := by
  induction evs with
  | nil => rfl
  | cons x rest ih =>
    unfold closeConsumer
    cases hm : marshal x <;> simp [List.filterMap_cons, hm, ih]

/-- The error consumer writes the serializations that succeeded, in order. -/
theorem errorConsumer_eq {ErrorResponse : Type} (marshal : ErrorResponse → Option Bytes)
    (evs : List ErrorResponse) :
    errorConsumer marshal evs = evs.filterMap (fun x => (marshal x).map Frame.text) := by
  induction evs with
  | nil => rfl
  | cons x rest ih =>
    unfold errorConsumer
    cases hm : marshal x <;> simp [List.filterMap_cons, hm, ih]

/-- C5: each consumer of `Run` writes its frames in the arrival order of its events. The
audio consumer writes, chunk after chunk, the chunk's bytes as one binary frame, preceded
or not by the header, whatever the clock readings; each JSON consumer writes the
serializations of the events whose marshal succeeded, in order, skipping the others. -/
theorem frames_in_arrival_order {O F C E : Type} (marshal : Marshal O F C E) (start : Int)
    (dch : MyHandler O F C E) :
    (∃ groups : List (List Frame),
      List.Forall₂ (fun g (e : BinaryEvent) =>
        g = [Frame.binary e.br] ∨ g = [Frame.binary header, Frame.binary e.br])
        groups dch.binaryChan ∧
      (Run marshal start dch).binaryWrites = groups.flatten) ∧
    (Run marshal start dch).openWrites =
      dch.openChan.filterMap (fun x => (marshal.openResponse x).map Frame.text) ∧
    (Run marshal start dch).flushedWrites =
      dch.flushedChan.filterMap (fun x => (marshal.flushedResponse x).map Frame.text) ∧
    (Run marshal start dch).closeWrites =
      dch.closeChan.filterMap (fun x => (marshal.closeResponse x).map Frame.text) ∧
    (Run marshal start dch).errorWrites =
      dch.errorChan.filterMap (fun x => (marshal.errorResponse x).map Frame.text) :=
  ⟨binaryLoop_groups _ _, openConsumer_eq _ _, flushedConsumer_eq _ _, closeConsumer_eq _ _,
    errorConsumer_eq _ _⟩

/-! ## The read loop -/

@[simp]
theorem after_calls (cs : List Call) (r : LoopResult) :
    (r.after cs).calls = cs ++ r.calls := rfl

@[simp]
theorem after_reads (cs : List Call) (r : LoopResult) :
    (r.after cs).reads = r.reads + 1 := rfl

@[simp]
theorem after_stop (cs : List Call) (r : LoopResult) :
    (r.after cs).stop = r.stop := rfl

@[simp]
theorem after_requestData (cs : List Call) (r : LoopResult) :
    (r.after cs).requestData = r.requestData := rfl

/-- A loop still reading has read the whole script. -/
theorem readLoop_reading_reads (requestData : String) (script : List Inbound)
    (h : (readLoop requestData script).stop = Stop.reading) :
    (readLoop requestData script).reads = script.length := by
  induction script generalizing requestData with
  | nil => rfl
  | cons x rest ih =>
    cases x with
    | readErr => simp [readLoop] at h
    | binary =>
      simp only [readLoop, after_stop] at h
      simp [readLoop, ih _ h]
    | text m s f =>
      simp only [readLoop] at h ⊢
      split_ifs at h ⊢ <;> simp_all

/-- The loop over a concatenation whose first part leaves it reading. -/
theorem readLoop_append (requestData : String) (pre post : List Inbound)
    (h : (readLoop requestData pre).stop = Stop.reading) :
    readLoop requestData (pre ++ post) =
      { calls := (readLoop requestData pre).calls ++
          (readLoop (readLoop requestData pre).requestData post).calls
        reads := pre.length + (readLoop (readLoop requestData pre).requestData post).reads
        stop := (readLoop (readLoop requestData pre).requestData post).stop
        requestData := (readLoop (readLoop requestData pre).requestData post).requestData } := by
  induction pre generalizing requestData with
  | nil => simp [readLoop]
  | cons x rest ih =>
    cases x with
    | readErr => simp [readLoop] at h
    | binary =>
      simp only [readLoop, after_stop] at h
      simp [readLoop, ih _ h, LoopResult.after]
      omega
    | text m s f =>
      simp only [readLoop] at h
      simp only [List.cons_append, readLoop]
      split_ifs at h ⊢ <;> first
        | (simp at h; done)
        | (simp only [after_stop] at h
           simp [ih _ h, LoopResult.after]
           omega)

/-- Once the loop has ended, later messages are not read. -/
theorem readLoop_stopped (requestData : String) (pre post : List Inbound)
    (h : (readLoop requestData pre).stop ≠ Stop.reading) :
    readLoop requestData (pre ++ post) = readLoop requestData pre := by
  induction pre generalizing requestData with
  | nil => simp [readLoop] at h
  | cons x rest ih =>
    cases x with
    | readErr => simp [readLoop]
    | binary =>
      simp only [readLoop, after_stop] at h
      simp [readLoop, ih _ h]
    | text m s f =>
      simp only [readLoop] at h
      simp only [List.cons_append, readLoop]
      split_ifs at h ⊢ <;> first
        | rfl
        | (simp only [after_stop] at h
           simp [ih _ h])

/-- The loop ends on a read error exactly when a read it made failed. -/
theorem readLoop_readFailed_iff (requestData : String) (script : List Inbound) :
    (readLoop requestData script).stop = Stop.readFailed ↔
      Inbound.readErr ∈ script.take (readLoop requestData script).reads := by
  induction script generalizing requestData with
  | nil => simp [readLoop]
  | cons x rest ih =>
    cases x with
    | readErr => simp [readLoop]
    | binary => simp [readLoop, ih]
    | text m s f =>
      simp only [readLoop]
      split_ifs <;> simp [ih]

/-- The loop ends on a flush failure exactly when a flush it requested failed. -/
theorem readLoop_flushFailed_iff (requestData : String) (script : List Inbound) :
    (readLoop requestData script).stop = Stop.flushFailed ↔
      Call.Flush true ∈ (readLoop requestData script).calls := by
  induction script generalizing requestData with
  | nil => simp [readLoop]
  | cons x rest ih =>
    cases x with
    | readErr => simp [readLoop]
    | binary => simp [readLoop, ih]
    | text m s f =>
      simp only [readLoop]
      split_ifs <;> simp [ih]

/-- C6 (failing input evaluated): after `{"text":"hello"}`, the message `{"txt":"hi"}` is
answered by a second `SpeakWithText("hello")` and a second `Flush`; and a session started
while `requestData.Text` still holds `hello` from another session does the same on its
first message. -/
theorem stale_text_forwarded :
    (readLoop "" [Inbound.text msgTextHello false false]).calls =
      [Call.SpeakWithText "hello" false, Call.Flush false] ∧
    (readLoop "" [Inbound.text msgTextHello false false,
        Inbound.text msgTxtHi false false]).calls =
      [Call.SpeakWithText "hello" false, Call.Flush false,
       Call.SpeakWithText "hello" false, Call.Flush false] ∧
    (handleWebSocket "hello"
        { model := "", upgradeOk := true, newClientOk := true, isConnected := true,
          inbound := [Inbound.text msgTxtHi false false] }).calls =
      [Call.SpeakWithText "hello" false, Call.Flush false] := by
  decide

/-- C7: a message `{"text":""}` received by the read loop, after whatever messages and
from whatever earlier value of `requestData`, causes no `SpeakWithText` and no `Flush`
call, and the loop goes on to read and handle the following messages. -/
theorem empty_text_not_forwarded (requestData : String) (pre post : List Inbound)
    (speakErr flushErr : Bool)
    (hpre : (readLoop requestData pre).stop = Stop.reading) :
    (readLoop requestData (pre ++ [Inbound.text msgTextEmpty speakErr flushErr])).calls =
      (readLoop requestData pre).calls ∧
    (readLoop requestData (pre ++ [Inbound.text msgTextEmpty speakErr flushErr])).stop =
      Stop.reading ∧
    (readLoop requestData (pre ++ [Inbound.text msgTextEmpty speakErr flushErr])).reads =
      pre.length + 1 ∧
    readLoop requestData (pre ++ Inbound.text msgTextEmpty speakErr flushErr :: post) =
      { calls := (readLoop requestData pre).calls ++ (readLoop "" post).calls
        reads := pre.length + 1 + (readLoop "" post).reads
        stop := (readLoop "" post).stop
        requestData := (readLoop "" post).requestData } := by
  refine ⟨?_, ?_, ?_, ?_⟩
  · simp [readLoop_append _ _ _ hpre, readLoop, msgTextEmpty]
  · simp [readLoop_append _ _ _ hpre, readLoop, msgTextEmpty]
  · simp [readLoop_append _ _ _ hpre, readLoop, msgTextEmpty]
  · simp [readLoop_append _ _ _ hpre, readLoop, msgTextEmpty, LoopResult.after]
    omega

/-- Witness of `empty_text_not_forwarded`: `{"text":"hello"}`, then `{"text":""}`, then
`{"text":"hello"}` again. -/
theorem empty_text_not_forwarded_witness :
    (readLoop "" [Inbound.text msgTextHello false false]).stop = Stop.reading ∧
    (readLoop "" ([Inbound.text msgTextHello false false] ++
        [Inbound.text msgTextEmpty false false])).calls =
      (readLoop "" [Inbound.text msgTextHello false false]).calls :=
  ⟨by decide,
   (empty_text_not_forwarded "" [Inbound.text msgTextHello false false]
      [Inbound.text msgTextHello false false] false false (by decide)).1⟩

/-- C8: the read loop ends exactly when a read fails or a requested flush fails. A text
message that fails to parse, a message with empty text, a binary message and a failed speak
request leave the loop reading; a following `{"text": t}` with non-empty `t` yields exactly
`SpeakWithText(t)` and then `Flush`; a failed flush ends the loop and nothing more is read. -/
theorem session_ends_only_on_read_or_flush_failure (requestData : String)
    (pre post : List Inbound)
    (hpre : (readLoop requestData pre).stop = Stop.reading) :
    (∀ (rd : String) (script : List Inbound),
      ((readLoop rd script).stop = Stop.readFailed ↔
        Inbound.readErr ∈ script.take (readLoop rd script).reads) ∧
      ((readLoop rd script).stop = Stop.flushFailed ↔
        Call.Flush true ∈ (readLoop rd script).calls) ∧
      ((readLoop rd script).stop = Stop.reading ↔
        Inbound.readErr ∉ script.take (readLoop rd script).reads ∧
        Call.Flush true ∉ (readLoop rd script).calls)) ∧
    (∀ (m : TextMessage) (s f : Bool), m.err = true →
      (readLoop requestData (pre ++ [Inbound.text m s f])).stop = Stop.reading ∧
      (readLoop requestData (pre ++ [Inbound.text m s f])).calls =
        (readLoop requestData pre).calls) ∧
    (∀ s f : Bool,
      (readLoop requestData (pre ++ [Inbound.text msgTextEmpty s f])).stop = Stop.reading) ∧
    (readLoop requestData (pre ++ [Inbound.binary])).stop = Stop.reading ∧
    (∀ m : TextMessage,
      (readLoop requestData (pre ++ [Inbound.text m true false])).stop = Stop.reading) ∧
    (∀ (t : String) (s f : Bool), t ≠ "" →
      (readLoop requestData (pre ++ [Inbound.text { stored := some t, err := false } s f])).calls
        = (readLoop requestData pre).calls ++ [Call.SpeakWithText t s, Call.Flush f]) ∧
    (∀ (m : TextMessage) (s : Bool),
      Call.Flush true ∈ (readLoop requestData (pre ++ [Inbound.text m s true])).calls →
      (readLoop requestData (pre ++ Inbound.text m s true :: post)).stop = Stop.flushFailed ∧
      (readLoop requestData (pre ++ Inbound.text m s true :: post)).reads = pre.length + 1 ∧
      readLoop requestData (pre ++ Inbound.text m s true :: post) =
        readLoop requestData (pre ++ [Inbound.text m s true])) := by
  refine ⟨?_, ?_, ?_, ?_, ?_, ?_, ?_⟩
  · intro rd script
    refine ⟨readLoop_readFailed_iff rd script, readLoop_flushFailed_iff rd script, ?_⟩
    rw [← readLoop_readFailed_iff, ← readLoop_flushFailed_iff]
    cases (readLoop rd script).stop <;> simp
  · intro m s f hm
    simp [readLoop_append _ _ _ hpre, readLoop, hm]
  · intro s f
    simp [readLoop_append _ _ _ hpre, readLoop, msgTextEmpty]
  · simp [readLoop_append _ _ _ hpre, readLoop]
  · intro m
    simp only [readLoop_append _ _ _ hpre, readLoop]
    split_ifs <;> simp_all
  · intro t s f ht
    simp only [readLoop_append _ _ _ hpre, readLoop]
    cases f <;> simp [ht]
  · intro m s hcall
    have hstop : (readLoop requestData (pre ++ [Inbound.text m s true])).stop =
        Stop.flushFailed := (readLoop_flushFailed_iff _ _).mpr hcall
    have hsplit : pre ++ Inbound.text m s true :: post =
        (pre ++ [Inbound.text m s true]) ++ post := by simp
    have hsame : readLoop requestData (pre ++ Inbound.text m s true :: post) =
        readLoop requestData (pre ++ [Inbound.text m s true]) := by
      rw [hsplit]
      exact readLoop_stopped _ _ _ (by rw [hstop]; decide)
    refine ⟨by rw [hsame, hstop], ?_, hsame⟩
    rw [hsame]
    simp only [readLoop_append _ _ _ hpre, readLoop] at hstop ⊢
    split_ifs at hstop ⊢ <;> simp_all

/-- Witness of `session_ends_only_on_read_or_flush_failure`: a message that is not JSON,
an empty text, a binary message and a message whose speak request fails, followed by
`{"text":"hello"}`. -/
theorem session_ends_only_on_read_or_flush_failure_witness :
    (readLoop "" [Inbound.text msgNotJSON false false, Inbound.text msgTextEmpty false false,
        Inbound.binary, Inbound.text msgTextHello true false]).stop = Stop.reading ∧
    (readLoop "" ([Inbound.text msgNotJSON false false, Inbound.text msgTextEmpty false false,
        Inbound.binary, Inbound.text msgTextHello true false] ++
        [Inbound.text { stored := some "hello", err := false } false false])).calls =
      (readLoop "" [Inbound.text msgNotJSON false false, Inbound.text msgTextEmpty false false,
        Inbound.binary, Inbound.text msgTextHello true false]).calls ++
        [Call.SpeakWithText "hello" false, Call.Flush false] :=
  ⟨by decide,
   (session_ends_only_on_read_or_flush_failure ""
      [Inbound.text msgNotJSON false false, Inbound.text msgTextEmpty false false,
        Inbound.binary, Inbound.text msgTextHello true false] [] (by decide)).2.2.2.2.2.1
      "hello" false false (by decide)⟩

/-! ## Client creation and connect -/

/-- C9 (failing input evaluated): after a successful upgrade, when `NewWSUsingChan` returns
an error or `Connect` returns false, `handleWebSocket` reaches `log.Fatalf`, which ends the
process; no message is read and no speak or flush call is made. -/
theorem connect_failure_terminates_process (requestData : String) (r : Request)
    (hup : r.upgradeOk = true)
    (hfail : r.newClientOk = false ∨ r.isConnected = false) :
    (handleWebSocket requestData r).outcome = Outcome.processTerminated ∧
    (∀ closed : Bool, (handleWebSocket requestData r).outcome ≠ Outcome.returned closed) ∧
    (handleWebSocket requestData r).calls = [] ∧
    (handleWebSocket requestData r).reads = 0 := by
  have hout : (handleWebSocket requestData r).outcome = Outcome.processTerminated := by
    unfold handleWebSocket
    rcases hfail with h | h
    · simp [hup, h]
    · by_cases hc : r.newClientOk = false <;> simp [hup, h, hc]
  refine ⟨hout, fun closed => by rw [hout]; simp, ?_, ?_⟩
  · unfold handleWebSocket
    rcases hfail with h | h
    · simp [hup, h]
    · by_cases hc : r.newClientOk = false <;> simp [hup, h, hc]
  · unfold handleWebSocket
    rcases hfail with h | h
    · simp [hup, h]
    · by_cases hc : r.newClientOk = false <;> simp [hup, h, hc]

/-- Witness of `connect_failure_terminates_process`: `Connect` returns false. -/
theorem connect_failure_terminates_process_witness :
    (handleWebSocket ""
      { model := "", upgradeOk := true, newClientOk := true, isConnected := false,
        inbound := [Inbound.text msgTextHello false false] }).outcome =
      Outcome.processTerminated :=
  (connect_failure_terminates_process ""
    { model := "", upgradeOk := true, newClientOk := true, isConnected := false,
      inbound := [Inbound.text msgTextHello false false] } rfl (Or.inr rfl)).1

end GoLiveTTS
